import Mathlib

/-!
Shallow embedding of the core of the past-forward-slider application:
the batch generation orchestrator in src/App.tsx (handleGenerateClick)
and the slider interpolation engine in src/components/ImageMorpher.tsx
(calculateOpacity, successfulImages). Machine numbers of the slider are
modelled as rationals; the batch mapping (a JS object keyed by label)
is modelled as a function from labels to optional entries.
-/

/-- Status of one generated image, from the ImageStatus type in App.tsx. -/
inductive ImageStatus
  | pending
  | done
  | error
deriving DecidableEq, Repr

/-- One entry of the batch mapping, from the GeneratedImage interface in
App.tsx: the url and error fields are optional there. -/
structure GeneratedImage where
  status : ImageStatus
  url : Option String
  error : Option String
deriving DecidableEq, Repr

/-- The generatedImages state: a mapping from label to entry. Labels that
were never written are absent, as in the initial empty JS object. -/
def Batch : Type := String → Option GeneratedImage

/-- JS truthiness of an optional string: undefined and the empty string
are falsy, every other string is truthy. -/
def optTruthy : Option String → Bool
  | none => false
  | some s => s != ""

/-- TIME_SHIFTS constant from App.tsx. -/
def TIME_SHIFTS : List Int := [-75, -50, -25, 25, 50, 75]

/-- Label construction from App.tsx: shift < 0 yields the plain number,
otherwise a leading plus sign, followed by a years suffix. -/
def shiftLabel (shift : Int) : String :=
  if shift < 0 then toString shift ++ " years" else "+" ++ toString shift ++ " years"

/-- TIME_LABELS constant from App.tsx. -/
def TIME_LABELS : List String := TIME_SHIFTS.map shiftLabel

/-- getTransformPrompt from App.tsx. -/
def getTransformPrompt (shift : Int) : String :=
  "You are an expert in historical and futuristic photography styles. Using the provided image, which is from the present day, transform it to look like it was taken " ++ toString shift.natAbs ++ " years in the " ++ (if shift < 0 then "past" else "future") ++ ". The entire image, including people, background, objects, fashion, and photographic style (color, grain, quality, aspect ratio) should be modified to convincingly represent that era. Do not add any text or overlays to the image. Ensure the output is a photorealistic image and maintains the core composition of the original."

/-- A value thrown by a failing generation call: either a JS Error object
carrying a message, or some other thrown value. -/
inductive GenFailure
  | jsError (msg : String)
  | nonError
deriving DecidableEq

/-- The catch handler in handleGenerateClick: an Error instance yields its
message, any other thrown value yields the fixed fallback text. -/
def describeFailure : GenFailure → String
  | .jsError msg => msg
  | .nonError => "Generation failed."

/-- Result of one transformImageForTimePeriod call: a url on success, a
thrown failure value otherwise. -/
abbrev Outcome := Except GenFailure String

/-- Writing one key of the batch mapping, as the object spread update in
the setGeneratedImages callbacks does. -/
def setEntry (b : Batch) (label : String) (img : GeneratedImage) : Batch :=
  fun l => if l = label then some img else b l

/-- The initialImages object of handleGenerateClick: every label of the
given list set to a pending entry with no url and no error. -/
def initialImages (labels : List String) : Batch :=
  List.foldl (fun b label => setEntry b label ⟨.pending, none, none⟩) (fun _ => none) labels

/-- The entry written by one settled task: the then-branch writes status
done with the url, the catch-branch writes status error with the
described failure message. -/
def settleEntry : Outcome → GeneratedImage
  | .ok url => ⟨.done, some url, none⟩
  | .error e => ⟨.error, none, some (describeFailure e)⟩

/-- One task completion landing on the batch mapping: it rewrites exactly
the entry of its own label. -/
def applySettle (b : Batch) (t : String × Outcome) : Batch :=
  setEntry b t.1 (settleEntry t.2)

/-- The batch of tasks started by handleGenerateClick, in program order:
the task at position i carries the label TIME_LABELS at i and that
task's eventual outcome. -/
def batchTasks (outcomes : Nat → Outcome) : List (String × Outcome) :=
  TIME_LABELS.enum.map (fun p => (p.2, outcomes p.1))

/-- The generation phase of handleGenerateClick, after Promise.allSettled
resolves: starting from the freshly initialized pending batch, the
completion callbacks land one by one in some completion order, each
applying its own settle. -/
def runBatch (labels : List String) (order : List (String × Outcome)) : Batch :=
  List.foldl applySettle (initialImages labels) order

/-- Observable result of one handleGenerateClick call: the batch mapping
it leaves behind, the generation calls it issued (source and prompt per
task), whether the generating phase was entered, and whether the call
itself surfaced an error to its caller. -/
structure GenerateResult where
  batch : Batch
  issuedCalls : List (String × String)
  started : Bool
  raised : Option String

/-- JS truthiness of the sourceImage state: null and the empty string are
falsy. -/
def strTruthy : Option String → Bool
  | none => false
  | some s => s != ""

/-- handleGenerateClick from App.tsx: a falsy sourceImage returns at once,
leaving the previous batch untouched and issuing no calls; otherwise the
batch is re-initialized and every task runs to a terminal settle. The
function body contains no throw, so no branch raises. -/
def handleGenerateClick (sourceImage : Option String) (prevImages : Batch)
    (order : List (String × Outcome)) : GenerateResult :=
  if strTruthy sourceImage then
    ⟨runBatch TIME_LABELS order,
      TIME_SHIFTS.map (fun shift => (sourceImage.getD "", getTransformPrompt shift)),
      true, none⟩
  else
    ⟨prevImages, [], false, none⟩

/-- calculateOpacity from ImageMorpher.tsx: distance beyond 1 is invisible,
otherwise a linear fade. -/
def calculateOpacity (index : Int) (currentValue : ℚ) : ℚ :=
  let distance := |currentValue - (index : ℚ)|
  if distance > 1 then 0
  else 1 - distance

/-- The max attribute of the range input in ImageMorpher.tsx: count - 1
when more than one image succeeded, otherwise 1. The min attribute is 0. -/
def sliderMax (count : Nat) : ℚ :=
  if count > 1 then (count : ℚ) - 1 else 1

/-- One element of the successfulImages list in ImageMorpher.tsx. -/
structure MorphImage where
  label : String
  url : Option String
  status : Option ImageStatus
deriving DecidableEq, Repr

/-- successfulImages from ImageMorpher.tsx: map each label to its entry
fields through optional chaining, then keep those whose status is done
and whose url is truthy. -/
def successfulImages (images : Batch) (labels : List String) : List MorphImage :=
  (labels.map (fun label =>
      (⟨label, (images label).bind GeneratedImage.url,
        (images label).map GeneratedImage.status⟩ : MorphImage))).filter
    (fun image => image.status == some ImageStatus.done && optTruthy image.url)

/-- The filter test of successfulImages, expressed directly on the batch
entry looked up at a label: the status read through optional chaining is
done and the url read through optional chaining is truthy. -/
def keepsLabel (b : Batch) (l : String) : Bool :=
  ((b l).map GeneratedImage.status == some ImageStatus.done) &&
    optTruthy ((b l).bind GeneratedImage.url)

/-- Invariant of one batch entry: a pending entry has neither url nor
error, a done entry has a url and no error, an error entry has an error
message and no url. -/
def entryInv (img : GeneratedImage) : Prop :=
  (img.status = ImageStatus.pending → img.url = none ∧ img.error = none) ∧
  (img.status = ImageStatus.done → img.url.isSome = true ∧ img.error = none) ∧
  (img.status = ImageStatus.error → img.url = none ∧ img.error.isSome = true)

/-- Invariant of a whole batch mapping: every present entry satisfies the
entry invariant. -/
def batchInv (b : Batch) : Prop :=
  ∀ l img, b l = some img → entryInv img

/-- A sample outcome assignment used to exercise theorems on concrete
data: tasks at even positions succeed, tasks at odd positions fail. -/
def sampleOutcomes : Nat → Outcome :=
  fun i =>
    if i % 2 = 0 then Except.ok ("url" ++ toString i)
    else Except.error (GenFailure.jsError "boom")

/-- The outcome assignment where every task fails with a thrown non-Error
value. -/
def allFailOutcomes : Nat → Outcome := fun _ => Except.error GenFailure.nonError

/-- The outcome assignment where every task succeeds but the service
returns the empty string as the url. -/
def emptyUrlOutcomes : Nat → Outcome := fun _ => Except.ok ""

theorem calculateOpacity_eq_max (i : Int) (c : ℚ) :
    calculateOpacity i c = max 0 (1 - |c - (i:ℚ)|) := by
  simp only [calculateOpacity]
  rcases le_or_lt (|c - (i:ℚ)|) 1 with h | h
  · rw [if_neg (not_lt.mpr h), max_eq_right (by linarith)]
  · rw [if_pos h, max_eq_left (by linarith)]

theorem calculateOpacity_nonneg (i : Int) (c : ℚ) : 0 ≤ calculateOpacity i c := by
  rw [calculateOpacity_eq_max]
  exact le_max_left _ _

theorem calculateOpacity_le_one (i : Int) (c : ℚ) : calculateOpacity i c ≤ 1 := by
  rw [calculateOpacity_eq_max]
  have h := abs_nonneg (c - (i:ℚ))
  apply max_le <;> linarith

theorem calculateOpacity_of_close (i : Int) (c : ℚ) (h : |c - (i:ℚ)| ≤ 1) :
    calculateOpacity i c = 1 - |c - (i:ℚ)| := by
  simp only [calculateOpacity]
  rw [if_neg (not_lt.mpr h)]

theorem calculateOpacity_of_far (i : Int) (c : ℚ) (h : 1 < |c - (i:ℚ)|) :
    calculateOpacity i c = 0 := by
  simp only [calculateOpacity]
  rw [if_pos h]

/-- Claim C3: for every cursor and every integer index, the computed weight
equals max 0 (1 - distance) where distance is the absolute difference of
cursor and index; in particular it is 1 when the cursor equals the index,
0 whenever the distance is at least 1, and always lies in the unit
interval. -/
theorem calculateOpacity_spec (c : ℚ) (i : Int) :
    calculateOpacity i c = max 0 (1 - |c - (i:ℚ)|) ∧
    0 ≤ calculateOpacity i c ∧ calculateOpacity i c ≤ 1 ∧
    (c = (i:ℚ) → calculateOpacity i c = 1) ∧
    (1 ≤ |c - (i:ℚ)| → calculateOpacity i c = 0) := by
  refine ⟨calculateOpacity_eq_max i c, calculateOpacity_nonneg i c,
    calculateOpacity_le_one i c, ?_, ?_⟩
  · intro h
    rw [calculateOpacity_eq_max, h]
    simp
  · intro h
    rw [calculateOpacity_eq_max, max_eq_left (by linarith)]

theorem calculateOpacity_spec_holds : 0 ≤ calculateOpacity 0 (1/2) :=
  (calculateOpacity_spec (1/2) 0).2.1

/-- Claim C10: the weight computation is total and returns a value in the
unit interval for every rational cursor (negative or past the last index
included) and every integer index (out-of-range indices included). -/
theorem calculateOpacity_total (i : Int) (c : ℚ) :
    0 ≤ calculateOpacity i c ∧ calculateOpacity i c ≤ 1 :=
  ⟨calculateOpacity_nonneg i c, calculateOpacity_le_one i c⟩

theorem calculateOpacity_total_holds :
    0 ≤ calculateOpacity 9 (-100) ∧ calculateOpacity 9 (-100) ≤ 1 :=
  calculateOpacity_total 9 (-100)

/-- Claim C4: for every cursor strictly between consecutive integer indices
i and i + 1, the weights of i and i + 1 sum to 1 and the weight of every
other integer index is 0. Stated for all integer indices, which covers in
particular the valid indices of the successful-items sequence. -/
theorem interpolation_partition (i j : Int) (c : ℚ)
    (h1 : (i:ℚ) < c) (h2 : c < (i:ℚ) + 1) (hj1 : j ≠ i) (hj2 : j ≠ i + 1) :
    calculateOpacity i c + calculateOpacity (i+1) c = 1 ∧ calculateOpacity j c = 0 := by
  have hcast : ((i + 1 : Int) : ℚ) = (i : ℚ) + 1 := by push_cast; ring
  have a1 : |c - (i:ℚ)| = c - (i:ℚ) := abs_of_nonneg (by linarith)
  have a2 : |c - ((i+1 : Int):ℚ)| = (i:ℚ) + 1 - c := by
    rw [hcast, abs_of_nonpos (by linarith)]
    ring
  constructor
  · rw [calculateOpacity_of_close i c (by rw [a1]; linarith),
      calculateOpacity_of_close (i+1) c (by rw [a2]; linarith), a1, a2]
    ring
  · have hj : j ≤ i - 1 ∨ i + 2 ≤ j := by omega
    refine calculateOpacity_of_far j c ?_
    rcases hj with hj | hj
    · have hq : (j:ℚ) ≤ (i:ℚ) - 1 := by exact_mod_cast hj
      rw [abs_of_nonneg (by linarith)]
      linarith
    · have hq : (i:ℚ) + 2 ≤ (j:ℚ) := by exact_mod_cast hj
      rw [abs_of_nonpos (by linarith)]
      linarith

theorem interpolation_partition_holds :
    calculateOpacity 0 (1/2) + calculateOpacity (0+1) (1/2) = 1 ∧
    calculateOpacity 2 (1/2) = 0 :=
  interpolation_partition 0 2 (1/2) (by norm_num) (by norm_num)
    (by norm_num) (by norm_num)

/-- Claim C2 counterexample: with exactly one successful item the slider
range is the unit interval, yet at cursor 1/2 the weight of the single
item at index 0 is 1/2, not 1: the item is not fully opaque across the
valid range. -/
theorem singleSuccess_midpoint_not_opaque :
    (0:ℚ) ≤ 1/2 ∧ (1/2 : ℚ) ≤ sliderMax 1 ∧ calculateOpacity 0 (1/2) ≠ 1 := by
  refine ⟨by norm_num, by norm_num [sliderMax], ?_⟩
  have h : |(1:ℚ)/2 - ((0:Int) : ℚ)| = 1/2 := by
    rw [abs_of_nonneg] <;> norm_num
  simp only [calculateOpacity, h]
  norm_num

/-- Claim C2 amended: when exactly one task succeeds, the slider range is
the unit interval and the weight of the single item at cursor c is 1 - c:
the item is fully opaque exactly at cursor 0 and fades out linearly
towards cursor 1. -/
theorem singleSuccess_linear_fade (c : ℚ) (h0 : 0 ≤ c) (h1 : c ≤ sliderMax 1) :
    sliderMax 1 = 1 ∧ calculateOpacity 0 c = 1 - c ∧
    (calculateOpacity 0 c = 1 ↔ c = 0) := by
  have hm : sliderMax 1 = 1 := by norm_num [sliderMax]
  rw [hm] at h1
  have ha : |c - ((0:Int):ℚ)| = c := by
    push_cast
    rw [sub_zero, abs_of_nonneg h0]
  have e : calculateOpacity 0 c = 1 - c := by
    rw [calculateOpacity_of_close 0 c (by rw [ha]; exact h1), ha]
  exact ⟨hm, e, by rw [e]; constructor <;> intro h <;> linarith⟩

theorem singleSuccess_linear_fade_holds :
    sliderMax 1 = 1 ∧ calculateOpacity 0 0 = 1 - 0 ∧
    (calculateOpacity 0 0 = 1 ↔ (0:ℚ) = 0) :=
  singleSuccess_linear_fade 0 le_rfl (by norm_num [sliderMax])

theorem foldl_applySettle_not_mem (order : List (String × Outcome)) (b : Batch)
    (l : String) (h : l ∉ order.map Prod.fst) :
    List.foldl applySettle b order l = b l := by
  induction order generalizing b with
  | nil => rfl
  | cons t rest ih =>
    simp only [List.map_cons, List.mem_cons, not_or] at h
    rw [List.foldl_cons, ih _ h.2]
    simp [applySettle, setEntry, h.1]

theorem foldl_applySettle_mem (order : List (String × Outcome)) (b : Batch)
    (l : String) (h : l ∈ order.map Prod.fst) :
    ∃ o, (l, o) ∈ order ∧ List.foldl applySettle b order l = some (settleEntry o) := by
  induction order generalizing b with
  | nil => simp at h
  | cons t rest ih =>
    by_cases hr : l ∈ rest.map Prod.fst
    · obtain ⟨o, ho, he⟩ := ih (applySettle b t) hr
      exact ⟨o, List.mem_cons_of_mem _ ho, by rw [List.foldl_cons]; exact he⟩
    · have hl : l = t.1 := by
        simp only [List.map_cons, List.mem_cons] at h
        tauto
      refine ⟨t.2, ?_, ?_⟩
      · rw [List.mem_cons]
        left
        rw [hl]
      · rw [List.foldl_cons, foldl_applySettle_not_mem rest _ l hr]
        simp [applySettle, setEntry, hl]

theorem foldl_applySettle_nodup_mem (order : List (String × Outcome)) (b : Batch)
    (l : String) (o : Outcome) (hnd : (order.map Prod.fst).Nodup)
    (h : (l, o) ∈ order) :
    List.foldl applySettle b order l = some (settleEntry o) := by
  induction order generalizing b with
  | nil => simp at h
  | cons t rest ih =>
    simp only [List.map_cons, List.nodup_cons] at hnd
    rw [List.foldl_cons]
    rcases List.mem_cons.mp h with heq | hmem
    · have hl : l = t.1 := congrArg Prod.fst heq
      have ho : o = t.2 := congrArg Prod.snd heq
      rw [foldl_applySettle_not_mem rest _ l (by rw [hl]; exact hnd.1)]
      simp [applySettle, setEntry, hl, ho]
    · exact ih (applySettle b t) hnd.2 hmem

theorem batchTasks_map_fst (outcomes : Nat → Outcome) :
    (batchTasks outcomes).map Prod.fst = TIME_LABELS := rfl

theorem TIME_LABELS_nodup : TIME_LABELS.Nodup := by decide

theorem mem_batchTasks (outcomes : Nat → Outcome) (i : Fin TIME_LABELS.length) :
    (TIME_LABELS.get i, outcomes i.1) ∈ batchTasks outcomes := by
  have hlen : i.1 < TIME_LABELS.enum.length := by
    rw [List.enum_length]
    exact i.2
  have hget : TIME_LABELS.enum[i.1] = (i.1, TIME_LABELS.get i) := by
    rw [List.getElem_enum, List.get_eq_getElem]
  have hmem : (i.1, TIME_LABELS.get i) ∈ TIME_LABELS.enum := by
    rw [← hget]
    exact List.getElem_mem hlen
  exact List.mem_map.mpr ⟨(i.1, TIME_LABELS.get i), hmem, rfl⟩

theorem runBatch_eval (outcomes : Nat → Outcome) (order : List (String × Outcome))
    (hperm : order.Perm (batchTasks outcomes)) (i : Fin TIME_LABELS.length) :
    runBatch TIME_LABELS order (TIME_LABELS.get i) = some (settleEntry (outcomes i.1)) := by
  have hnd : (order.map Prod.fst).Nodup := by
    rw [(hperm.map Prod.fst).nodup_iff, batchTasks_map_fst]
    exact TIME_LABELS_nodup
  have hmem : (TIME_LABELS.get i, outcomes i.1) ∈ order :=
    hperm.mem_iff.mpr (mem_batchTasks outcomes i)
  exact foldl_applySettle_nodup_mem order _ _ _ hnd hmem

/-- Claim C1: after the generation phase resolves, modelled by folding the
completion callbacks in an order that contains every task exactly once,
every label of TIME_LABELS has a present batch entry whose status is done
or error, never pending. -/
theorem runBatch_terminal (outcomes : Nat → Outcome) (order : List (String × Outcome))
    (hperm : order.Perm (batchTasks outcomes)) (label : String)
    (hl : label ∈ TIME_LABELS) :
    ∃ img, runBatch TIME_LABELS order label = some img ∧
      (img.status = ImageStatus.done ∨ img.status = ImageStatus.error) := by
  have hkeys : label ∈ order.map Prod.fst := by
    rw [(hperm.map Prod.fst).mem_iff, batchTasks_map_fst]
    exact hl
  obtain ⟨o, _, he⟩ := foldl_applySettle_mem order (initialImages TIME_LABELS) label hkeys
  refine ⟨settleEntry o, he, ?_⟩
  cases o <;> simp [settleEntry]

theorem runBatch_terminal_holds :
    ∃ img, runBatch TIME_LABELS (batchTasks sampleOutcomes) "-75 years" = some img ∧
      (img.status = ImageStatus.done ∨ img.status = ImageStatus.error) :=
  runBatch_terminal sampleOutcomes (batchTasks sampleOutcomes) (List.Perm.refl _)
    "-75 years" (by decide)

/-- Claim C5: a task completion rewrites exactly its own label entry, a
success writing a done entry with the url and a failure writing an error
entry with the described message, and leaves every other label untouched;
consequently the terminal entry of each label is determined by that label
own outcome alone, whatever the other tasks did and in whatever order the
batch settled. -/
theorem task_isolation :
    (∀ (b : Batch) (label : String) (o : Outcome) (l : String), l ≠ label →
      applySettle b (label, o) l = b l) ∧
    (∀ (b : Batch) (label url : String),
      applySettle b (label, Except.ok url) label =
        some ⟨ImageStatus.done, some url, none⟩) ∧
    (∀ (b : Batch) (label : String) (e : GenFailure),
      applySettle b (label, Except.error e) label =
        some ⟨ImageStatus.error, none, some (describeFailure e)⟩) ∧
    (∀ (outcomes1 outcomes2 : Nat → Outcome)
      (order1 order2 : List (String × Outcome)) (i : Fin TIME_LABELS.length),
      order1.Perm (batchTasks outcomes1) → order2.Perm (batchTasks outcomes2) →
      outcomes1 i.1 = outcomes2 i.1 →
      runBatch TIME_LABELS order1 (TIME_LABELS.get i) =
        runBatch TIME_LABELS order2 (TIME_LABELS.get i)) := by
  refine ⟨?_, ?_, ?_, ?_⟩
  · intro b label o l hne
    simp [applySettle, setEntry, hne]
  · intro b label url
    simp [applySettle, setEntry, settleEntry]
  · intro b label e
    simp [applySettle, setEntry, settleEntry]
  · intro o1 o2 ord1 ord2 i h1 h2 heq
    rw [runBatch_eval o1 ord1 h1 i, runBatch_eval o2 ord2 h2 i, heq]

theorem task_isolation_holds :
    runBatch TIME_LABELS (batchTasks sampleOutcomes) (TIME_LABELS.get ⟨0, by decide⟩) =
      runBatch TIME_LABELS
        (batchTasks (fun i => if i = 0 then sampleOutcomes 0 else allFailOutcomes i))
        (TIME_LABELS.get ⟨0, by decide⟩) :=
  task_isolation.2.2.2 sampleOutcomes
    (fun i => if i = 0 then sampleOutcomes 0 else allFailOutcomes i)
    (batchTasks sampleOutcomes)
    (batchTasks (fun i => if i = 0 then sampleOutcomes 0 else allFailOutcomes i))
    ⟨0, by decide⟩ (List.Perm.refl _) (List.Perm.refl _) rfl

/-- Claim C6: handleGenerateClick never surfaces an error to its caller,
for every combination of per-task outcomes including every task failing;
and when the source is truthy the batch it resolves with reflects the
settle of every single task, so no task was skipped and no early exit on
a first failure or first success occurred. -/
theorem runBatch_settles_all (sourceImage : Option String) (prev : Batch)
    (outcomes : Nat → Outcome) (order : List (String × Outcome))
    (hperm : order.Perm (batchTasks outcomes)) :
    (handleGenerateClick sourceImage prev order).raised = none ∧
    (strTruthy sourceImage = true →
      ∀ i : Fin TIME_LABELS.length,
        (handleGenerateClick sourceImage prev order).batch (TIME_LABELS.get i) =
          some (settleEntry (outcomes i.1))) := by
  constructor
  · simp only [handleGenerateClick]
    split <;> rfl
  · intro hsrc i
    simp only [handleGenerateClick, hsrc, if_true]
    exact runBatch_eval outcomes order hperm i

theorem runBatch_settles_all_holds :
    (handleGenerateClick (some "img") (fun _ => none)
      (batchTasks allFailOutcomes)).raised = none ∧
    (strTruthy (some "img") = true →
      ∀ i : Fin TIME_LABELS.length,
        (handleGenerateClick (some "img") (fun _ => none)
            (batchTasks allFailOutcomes)).batch (TIME_LABELS.get i) =
          some (settleEntry (allFailOutcomes i.1))) :=
  runBatch_settles_all (some "img") (fun _ => none) allFailOutcomes
    (batchTasks allFailOutcomes) (List.Perm.refl _)

theorem entryInv_settleEntry (o : Outcome) : entryInv (settleEntry o) := by
  cases o <;> simp [settleEntry, entryInv]

theorem batchInv_setEntry (b : Batch) (label : String) (img : GeneratedImage)
    (hb : batchInv b) (hi : entryInv img) : batchInv (setEntry b label img) := by
  intro l img2 h
  simp only [setEntry] at h
  split at h
  · injection h with h
    subst h
    exact hi
  · exact hb l img2 h

theorem batchInv_empty : batchInv (fun _ => none) := by
  intro l img h
  exact Option.noConfusion h

theorem batchInv_foldl_pending (labels : List String) (b : Batch) (hb : batchInv b) :
    batchInv (List.foldl (fun b label => setEntry b label ⟨.pending, none, none⟩) b labels) := by
  induction labels generalizing b with
  | nil => exact hb
  | cons l rest ih =>
    rw [List.foldl_cons]
    exact ih _ (batchInv_setEntry _ _ _ hb (by simp [entryInv]))

theorem batchInv_foldl_applySettle (order : List (String × Outcome)) (b : Batch)
    (hb : batchInv b) : batchInv (List.foldl applySettle b order) := by
  induction order generalizing b with
  | nil => exact hb
  | cons t rest ih =>
    rw [List.foldl_cons]
    exact ih _ (batchInv_setEntry _ _ _ hb (entryInv_settleEntry t.2))

/-- Claim C8: every reachable batch state, the freshly initialized pending
batch followed by any sequence of task settles, satisfies the invariant:
a pending entry has neither url nor error message, a done entry has a url
and no error message, an error entry has an error message and no url. -/
theorem batch_invariant (labels : List String) (order : List (String × Outcome)) :
    batchInv (runBatch labels order) :=
  batchInv_foldl_applySettle order (initialImages labels)
    (batchInv_foldl_pending labels _ batchInv_empty)

theorem batch_invariant_holds : entryInv ⟨ImageStatus.pending, none, none⟩ :=
  batch_invariant TIME_LABELS [] "-75 years" ⟨ImageStatus.pending, none, none⟩ (by rfl)

/-- Claim C9 counterexample: with a null source the call returns silently:
no generation call is issued, the generating phase is not entered and the
previous batch is untouched, but nothing is reported to the caller, the
result carries no raised error. The same holds for an empty-string
source. -/
theorem emptySource_not_reported :
    (handleGenerateClick none (fun _ => none) []).raised = none ∧
    (handleGenerateClick (some "") (fun _ => none) []).raised = none ∧
    (handleGenerateClick none (fun _ => none) []).issuedCalls = [] ∧
    (handleGenerateClick none (fun _ => none) []).started = false ∧
    (handleGenerateClick none (fun _ => none) []).batch "-75 years" = none :=
  ⟨rfl, rfl, rfl, rfl, rfl⟩

/-- Claim C9 amended: a falsy source, null or the empty string, makes the
call return before anything happens: no generation call is issued, the
batch mapping is left unchanged and the generating phase is not entered;
however the precondition failure is not reported to the caller, the call
returns silently with no raised error. -/
theorem emptySource_noop (src : Option String) (prev : Batch)
    (order : List (String × Outcome)) (h : strTruthy src = false) :
    handleGenerateClick src prev order = ⟨prev, [], false, none⟩ := by
  simp [handleGenerateClick, h]

theorem emptySource_noop_holds :
    handleGenerateClick none (fun _ => none) [] = ⟨(fun _ => none), [], false, none⟩ :=
  emptySource_noop none (fun _ => none) [] rfl

theorem successfulImages_filter (b : Batch) (labels : List String) :
    (successfulImages b labels).map MorphImage.label = labels.filter (keepsLabel b) := by
  induction labels with
  | nil => rfl
  | cons l rest ih =>
    simp only [successfulImages, keepsLabel] at ih ⊢
    simp only [List.map_cons, List.filter_cons]
    by_cases h : (((b l).map GeneratedImage.status == some ImageStatus.done) &&
        optTruthy ((b l).bind GeneratedImage.url)) = true
    · simp only [h, ih, if_true, List.map_cons]
      rw [if_pos (show keepsLabel b l = true from h)]
    · simp only [h, ih, if_false, Bool.false_eq_true]
      rw [if_neg (show ¬ keepsLabel b l = true from h)]

theorem successfulImages_congr (b1 b2 : Batch) (labels : List String)
    (h : ∀ l ∈ labels, b1 l = b2 l) :
    successfulImages b1 labels = successfulImages b2 labels := by
  unfold successfulImages
  rw [List.map_congr_left (fun l hl => by rw [h l hl])]

/-- Claim C7 counterexample: when every task succeeds but the service
returns the empty string as url, every entry of the final batch has
status done, yet successfulImages is empty, because the JS truthiness
check on the url drops a done entry whose url is the empty string: the
successful-items sequence is not the restriction of the label sequence to
labels with status done. -/
theorem successfulImages_drops_empty_url :
    runBatch TIME_LABELS (batchTasks emptyUrlOutcomes) "-75 years" =
      some ⟨ImageStatus.done, some "", none⟩ ∧
    successfulImages (runBatch TIME_LABELS (batchTasks emptyUrlOutcomes)) TIME_LABELS = [] ∧
    TIME_LABELS.filter (fun l =>
      (runBatch TIME_LABELS (batchTasks emptyUrlOutcomes) l).map GeneratedImage.status ==
        some ImageStatus.done) = TIME_LABELS :=
  ⟨rfl, rfl, rfl⟩

/-- Claim C7 amended: the successful-items sequence is exactly the fixed
label sequence restricted to labels whose final entry has status done and
a truthy url, so it preserves the original relative label order; and it
is the same whatever order the tasks completed in. JS truthiness makes
the restriction strictly finer than status done alone: a done entry whose
url is the empty string is dropped. -/
theorem successfulImages_order_preserved (outcomes : Nat → Outcome)
    (order : List (String × Outcome)) (hperm : order.Perm (batchTasks outcomes)) :
    (successfulImages (runBatch TIME_LABELS order) TIME_LABELS).map MorphImage.label =
      TIME_LABELS.filter (keepsLabel (runBatch TIME_LABELS order)) ∧
    successfulImages (runBatch TIME_LABELS order) TIME_LABELS =
      successfulImages (runBatch TIME_LABELS (batchTasks outcomes)) TIME_LABELS := by
  refine ⟨successfulImages_filter _ _, ?_⟩
  refine successfulImages_congr _ _ _ ?_
  intro l hl
  obtain ⟨i, hi⟩ := List.mem_iff_get.mp hl
  rw [← hi, runBatch_eval outcomes order hperm i,
    runBatch_eval outcomes (batchTasks outcomes) (List.Perm.refl _) i]

theorem successfulImages_order_preserved_holds :
    (successfulImages (runBatch TIME_LABELS (batchTasks sampleOutcomes)) TIME_LABELS).map
        MorphImage.label =
      TIME_LABELS.filter (keepsLabel (runBatch TIME_LABELS (batchTasks sampleOutcomes))) ∧
    successfulImages (runBatch TIME_LABELS (batchTasks sampleOutcomes)) TIME_LABELS =
      successfulImages (runBatch TIME_LABELS (batchTasks sampleOutcomes)) TIME_LABELS :=
  successfulImages_order_preserved sampleOutcomes (batchTasks sampleOutcomes)
    (List.Perm.refl _)
